import Mathlib

/-! Shallow embedding of `src/app.py` (SEO bulk page generator) together with
proofs about its specification claims.  Python strings are modeled as Lean
`String` (a packed `List Char`, matching Python's code-point semantics).
`list(set(xs))` is modeled as `List.dedup xs`: Python's set iteration order is
unspecified, and downstream code relies only on distinctness and membership of
the deduplicated list.  The network call made by the content generator and the
`json.loads` parser are passed in as oracle parameters, so every possible
service behavior is quantified over. -/

-- ### Python string primitives

/-- Characters stripped by Python `str.strip()` and matched by `\s`
(ASCII whitespace: space, tab, newline, carriage return, vertical tab,
form feed). -/
def isWS (c : Char) : Bool :=
  c == ' ' || c == '\t' || c == '\n' || c == '\r' || c == Char.ofNat 11 || c == Char.ofNat 12

/-- Drop leading whitespace characters. -/
def dropWS (l : List Char) : List Char := l.dropWhile isWS

/-- Python `str.strip()` on a list of characters: drop leading and trailing
whitespace. -/
def trimCh (l : List Char) : List Char := (dropWS ((dropWS l).reverse)).reverse

/-- Python `str.strip()`. -/
def pyStrip (s : String) : String := String.mk (trimCh s.data)

/-- Python `s.split(sep)` for a one-character separator: split at every
occurrence of the separator, keeping empty pieces; splitting the empty string
yields `[""]`, just as in Python. -/
def splitCh (sep : Char) : List Char → List (List Char)
  | [] => [[]]
  | c :: cs =>
    let r := splitCh sep cs
    if c == sep then [] :: r else (c :: r.headD []) :: r.tail

/-- Python slicing `s[:n]`: the first `n` code points of `s`. -/
def pySlice (n : Nat) (s : String) : String := String.mk (s.data.take n)

/-- Python `len` on a string (number of code points). -/
def pyLen (s : String) : Nat := s.data.length

/-- Python `str.replace(pat, rep)`: replace non-overlapping occurrences left to
right.  The recursion is indexed by fuel so that the definition is structural;
fuel equal to the length of the input always suffices because every step
consumes at least one character. -/
def replAux (pat rep : List Char) : Nat → List Char → List Char
  | _, [] => []
  | 0, l => l
  | fuel + 1, c :: cs =>
    if !pat.isEmpty && pat.isPrefixOf (c :: cs) then
      rep ++ replAux pat rep fuel (cs.drop (pat.length - 1))
    else
      c :: replAux pat rep fuel cs

/-- Python `s.replace(pat, rep)`. -/
def pyReplace (s pat rep : String) : String :=
  String.mk (replAux pat.data rep.data s.data.length s.data)

/-- Python `s.replace(old, new)` where both arguments are single characters. -/
def pyReplaceChar (old new : Char) (s : String) : String :=
  String.mk (s.data.map (fun c => if c == old then new else c))

/-- Python string truthiness applied to `a or b`: the empty string is falsy. -/
def pyOrStr (a b : String) : String := if a = "" then b else a

/-- Python `str.lower()` (ASCII case folding, which is all the source uses). -/
def pyLower (s : String) : String := String.mk (s.data.map Char.toLower)

-- ### Data model

/-- One parsed keyword line: the dict built by `parse_keywords_input`. -/
structure KeywordRecord where
  keyword : String
  city : String
  state : String
  country : String
  deriving DecidableEq

/-- One benefit section of generated content.  Fields are optional because a
parsed model reply may lack keys; the source reads them with `.get`. -/
structure Benefit where
  title : Option String
  description : Option String
  deriving DecidableEq

/-- The content dict produced by `generate_content_with_openai` (either parsed
from the model reply or the deterministic fallback).  Fields are optional
because the source reads them with `.get` and supplies defaults. -/
structure GeneratedContent where
  h1 : Option String
  intro : Option String
  benefits : Option (List Benefit)
  cta : Option String
  deriving DecidableEq

/-- The fixed-shape `schema_org` dict built by `generate_meta_tags`.  The
constant fields (`@context`, `@type` twice, `addressRegion`) are not stored;
they are emitted verbatim by the serializer. -/
structure SchemaOrg where
  name : String
  description : String
  areaServed : String
  addressLocality : String
  addressCountry : String
  deriving DecidableEq

/-- The dict returned by `generate_meta_tags`. -/
structure MetaTags where
  title : String
  description : String
  keywords : String
  schema : SchemaOrg
  deriving DecidableEq

/-- One entry of `st.session_state.generated_pages`. -/
structure PageResult where
  keyword : String
  city : String
  country : String
  html : String
  content : GeneratedContent
  meta : MetaTags
  deriving DecidableEq

-- ### Keyword parser (src/app.py lines 58 to 74)

/-- Python `line.startswith(c)` for the single comment character. -/
def startsWithHash : List Char → Bool
  | [] => false
  | c :: _ => c == '#'

/-- The record built for one kept (stripped) line, lines 64 to 73 of the
source: on a line containing a comma, fields are `parts[i].strip()` when
present and `''` otherwise; a line with no comma becomes a record with the
line as keyword. -/
def codeLineRecord (line : List Char) : KeywordRecord :=
  if line.contains ',' then
    let parts := splitCh ',' line
    { keyword := String.mk (trimCh (parts.getD 0 []))
      city := if parts.length > 1 then String.mk (trimCh (parts.getD 1 [])) else ""
      state := if parts.length > 2 then String.mk (trimCh (parts.getD 2 [])) else ""
      country := if parts.length > 3 then String.mk (trimCh (parts.getD 3 [])) else "" }
  else
    { keyword := String.mk line, city := "", state := "", country := "" }

/-- `parse_keywords_input`: strip the whole input, split it into lines, strip
each line, keep the non-empty lines that do not start with the comment marker,
and turn each kept line into one record via `codeLineRecord`. -/
def parse_keywords_input (keyword_input : String) : List KeywordRecord :=
  (splitCh '\n' (trimCh keyword_input.data)).filterMap fun rawLine =>
    let line := trimCh rawLine
    if !line.isEmpty && !startsWithHash line then some (codeLineRecord line)
    else none

/-- Field `i` of a comma-separated line as the spec describes it: positional,
trimmed, defaulting to the empty string when the field is missing. -/
def specField (fields : List (List Char)) (i : Nat) : String :=
  String.mk (trimCh (fields.getD i []))

/-- The record for one kept line, written from the spec's words ("comma-separated
fields map positionally to keyword, city, state, country, with missing trailing
fields defaulting to empty string", each field trimmed).  Used for the
refinement claim C5. -/
def specLineRecord (line : List Char) : KeywordRecord :=
  let fields := splitCh ',' line
  { keyword := specField fields 0
    city := specField fields 1
    state := specField fields 2
    country := specField fields 3 }

/-- The parser as described by the spec: one record per non-empty,
non-comment line.  Used for the refinement claim C5. -/
def specParse (input : String) : List KeywordRecord :=
  ((splitCh '\n' (trimCh input.data)).map trimCh).filterMap fun line =>
    if !line.isEmpty && !startsWithHash line then some (specLineRecord line) else none

-- ### Meta/schema builder (src/app.py lines 76 to 106)

/-- `generate_meta_tags`. -/
def generate_meta_tags (keyword city country content_summary : String) : MetaTags :=
  let location_text :=
    (if city ≠ "" then " in " ++ city else "") ++
    (if country ≠ "" then ", " ++ country else "")
  let meta_title :=
    pySlice 55 (pyReplace (keyword ++ location_text ++ " | Professional Services") "  " " ")
  let meta_desc :=
    pySlice 155 (pyReplace ("Expert " ++ keyword ++ " services" ++ location_text ++ ". " ++
      pySlice 80 content_summary ++ "...") "  " " ")
  { title := meta_title
    description := meta_desc
    keywords := keyword ++ ", " ++ keyword ++ " services, professional " ++ keyword
    schema :=
      { name := keyword
        description := meta_desc
        areaServed := pyOrStr country "Worldwide"
        addressLocality := city
        addressCountry := pyOrStr country "US" } }

-- ### Content generator (src/app.py lines 108 to 161)

/-- The `location_context` accumulation (lines 113 to 115). -/
def locationContext (city state country : String) : String :=
  (if city ≠ "" then " in " ++ city else "") ++
  (if state ≠ "" then ", " ++ state else "") ++
  (if country ≠ "" then ", " ++ country else "")

/-- The deterministic fallback content substituted when the model reply cannot
be parsed (lines 146 to 155): a pure function of the keyword and the location
context string. -/
def fallbackContent (keyword location_context : String) : GeneratedContent :=
  { h1 := some ("Professional " ++ keyword ++ " Services" ++ location_context)
    intro := some ("Looking for quality " ++ keyword ++ " services" ++ location_context ++
      "? We provide expert solutions tailored to your needs.")
    benefits := some
      [ { title := some "Expert Team"
          description := some ("Our experienced professionals deliver top-quality " ++
            keyword ++ " services.") }
      , { title := some "Affordable Pricing"
          description := some ("Competitive rates for " ++ keyword ++
            " without compromising quality.") }
      , { title := some "Fast Service"
          description := some ("Quick turnaround on " ++ keyword ++
            " projects while maintaining excellence.") } ]
    cta := some ("Contact us today for professional " ++ keyword ++ " services!") }

/-- `generate_content_with_openai`.  The network call and `json.loads` are
oracles: `apiResponse` is the text of the model reply, or `Except.error` when
the service call raises (in which case the source shows an error and returns
`None`); `parse` abstracts `json.loads` producing a well-typed content dict,
returning `none` on any parse failure.  The `apiKey` argument is kept for
fidelity with the source signature; it only configures the client. -/
def generate_content_with_openai (parse : String → Option GeneratedContent)
    (keyword city state country : String) (apiKey : String)
    (apiResponse : Except String String) : Option GeneratedContent :=
  match apiResponse with
  | Except.error _ => none
  | Except.ok content_text =>
    some
      (match parse content_text with
       | some content => content
       | none => fallbackContent keyword (locationContext city state country))

-- ### Style extractor (src/app.py lines 46 to 56)

/-- Hex digit test for the color pattern character class `[0-9a-fA-F]`. -/
def isHexDigit (c : Char) : Bool :=
  (decide ('0' ≤ c) && decide (c ≤ '9')) ||
  (decide ('a' ≤ c) && decide (c ≤ 'f')) ||
  (decide ('A' ≤ c) && decide (c ≤ 'F'))

/-- Match one alternative of the color pattern
`#(?:[0-9a-fA-F]{3}){1,2}|rgb\([^)]+\)|rgba\([^)]+\)` at the head of the
input, exactly as the backtracking engine does: after `#`, the greedy
`{1,2}` takes six hex digits when available, else three; after `rgb(` or
`rgba(` the greedy `[^)]+` must be non-empty and be followed by `)`.
Returns the matched token and the number of characters consumed. -/
def matchParenBody (pre rest : List Char) : Option (List Char × Nat) :=
  let body := rest.takeWhile (fun c => !(c == ')'))
  if body.isEmpty then none
  else
    match rest.drop body.length with
    | ')' :: _ => some (pre ++ body ++ [')'], pre.length + body.length + 1)
    | _ => none

/-- See `matchParenBody`; dispatch between the three alternatives in the
pattern's order. -/
def matchColorAt (l : List Char) : Option (List Char × Nat) :=
  match l with
  | '#' :: rest =>
    let run := rest.takeWhile isHexDigit
    if run.length ≥ 6 then some ('#' :: rest.take 6, 7)
    else if run.length ≥ 3 then some ('#' :: rest.take 3, 4)
    else none
  | _ =>
    if ("rgb(".data).isPrefixOf l then matchParenBody ("rgb(".data) (l.drop 4)
    else if ("rgba(".data).isPrefixOf l then matchParenBody ("rgba(".data) (l.drop 5)
    else none

/-- Case-insensitive literal test for `font-family:` (the pattern is compiled
with `re.IGNORECASE`). -/
def ciHasPre (pat l : List Char) : Bool :=
  (l.take pat.length).map Char.toLower == pat

/-- Character class `[^'";\n]` of the font pattern group (apostrophe and
double quote written by code point). -/
def isFontGroupChar (c : Char) : Bool :=
  !(c == Char.ofNat 39 || c == Char.ofNat 34 || c == ';' || c == '\n')

/-- Quote characters matched by the optional `['\"]`. -/
def isQuoteChar (c : Char) : Bool :=
  c == Char.ofNat 39 || c == Char.ofNat 34

/-- After `font-family:` and some whitespace: match `['\"]?([^'\";\n]+)['\"]?[;]`.
The greedy group can only succeed at its maximal extent (a shorter extent would
have to be followed by `;` or a quote, but every group character is excluded
from those), so no group backtracking is needed; the trailing quote is tried
consumed first, then empty.  Returns the captured group and the characters
consumed. -/
def matchFontCore (s : List Char) : Option (List Char × Nat) :=
  let consume : List Char → Option (List Char × Nat) := fun t =>
    let g := t.takeWhile isFontGroupChar
    if g.isEmpty then none
    else
      match t.drop g.length with
      | ';' :: _ => some (g, g.length + 1)
      | q :: ';' :: _ => if isQuoteChar q then some (g, g.length + 2) else none
      | _ => none
  match s with
  | c :: cs =>
    if isQuoteChar c then
      match consume cs with
      | some (g, n) => some (g, n + 1)
      | none => none
    else consume s
  | [] => consume []

/-- Backtracking over the greedy `\s*` of the font pattern: try the maximal
whitespace run first, then shorter runs (the group class admits whitespace
other than newline, so a shorter run can still succeed). -/
def matchFontWs : List Char → Option (List Char × Nat)
  | [] => matchFontCore []
  | c :: cs =>
    if isWS c then
      match matchFontWs cs with
      | some (g, n) => some (g, n + 1)
      | none => matchFontCore (c :: cs)
    else matchFontCore (c :: cs)

/-- Match the font pattern `font-family:\s*['\"]?([^'\";\n]+)['\"]?[;]`
(IGNORECASE) at the head of the input; `re.findall` returns the group
capture.  Returns the capture and the characters consumed by the whole
match. -/
def matchFontAt (l : List Char) : Option (List Char × Nat) :=
  if ciHasPre ("font-family:".data) l then
    match matchFontWs (l.drop 12) with
    | some (g, n) => some (g, 12 + n)
    | none => none
  else none

/-- `re.findall` scanning: walk the text left to right, at each position try
the matcher; on a match emit its token and continue after it, otherwise
advance one character.  Fuel equal to the length of the input suffices since
every step consumes at least one character. -/
def scanAllAux (m : List Char → Option (List Char × Nat)) : Nat → List Char → List (List Char)
  | _, [] => []
  | 0, _ => []
  | fuel + 1, c :: cs =>
    match m (c :: cs) with
    | some (tok, n) => tok :: scanAllAux m fuel ((c :: cs).drop (max n 1))
    | none => scanAllAux m fuel cs

/-- All matches of `m` in `l`, left to right, non-overlapping. -/
def scanAll (m : List Char → Option (List Char × Nat)) (l : List Char) : List (List Char) :=
  scanAllAux m l.length l

/-- `extract_colors_from_html` (lines 46 to 50): `colors[:5] if colors else []`
over `list(set(findall(color_pattern, html)))`. -/
def extract_colors_from_html (html_content : String) : List String :=
  let colors := ((scanAll matchColorAt html_content.data).map String.mk).dedup
  if colors.isEmpty then [] else colors.take 5

/-- `extract_fonts_from_html` (lines 52 to 56): `fonts[:3]` when any
declaration was found, else the fixed fallback list. -/
def extract_fonts_from_html (html_content : String) : List String :=
  let fonts := ((scanAll matchFontAt html_content.data).map String.mk).dedup
  if fonts.isEmpty then ["Arial", "Helvetica", "sans-serif"] else fonts.take 3

-- ### Page renderer (src/app.py lines 163 to 265)

/-- One hexadecimal digit, lowercase, as `json.dumps` prints it. -/
def hexDigit (k : Nat) : Char :=
  if k < 10 then Char.ofNat (48 + k) else Char.ofNat (87 + k)

/-- Four-digit lowercase hex rendering of `n` (for `\uXXXX` escapes). -/
def hex4 (n : Nat) : List Char :=
  [hexDigit (n / 4096 % 16), hexDigit (n / 256 % 16), hexDigit (n / 16 % 16), hexDigit (n % 16)]

/-- Escape one character the way Python `json.dumps` (default `ensure_ascii`)
does: the two-character escapes for quote, backslash and the common control
characters, `\uXXXX` for other control or non-ASCII characters, surrogate
pairs above the basic plane.  Quote and backslash are written by code
point. -/
def jsonEscChar (c : Char) : List Char :=
  if c == Char.ofNat 34 then [Char.ofNat 92, Char.ofNat 34]
  else if c == Char.ofNat 92 then [Char.ofNat 92, Char.ofNat 92]
  else if c == '\n' then [Char.ofNat 92, 'n']
  else if c == '\t' then [Char.ofNat 92, 't']
  else if c == '\r' then [Char.ofNat 92, 'r']
  else if c == Char.ofNat 8 then [Char.ofNat 92, 'b']
  else if c == Char.ofNat 12 then [Char.ofNat 92, 'f']
  else if c.val < 32 || c.val > 126 then
    if c.val ≤ 65535 then Char.ofNat 92 :: 'u' :: hex4 c.val.toNat
    else
      Char.ofNat 92 :: 'u' :: hex4 (55296 + (c.val.toNat - 65536) / 1024) ++
        (Char.ofNat 92 :: 'u' :: hex4 (56320 + (c.val.toNat - 65536) % 1024))
  else [c]

/-- A JSON string literal as `json.dumps` prints it. -/
def jsonStr (s : String) : String :=
  "\"" ++ String.mk (s.data.flatMap jsonEscChar) ++ "\""

/-- `json.dumps(schema_org, indent=2)` for the fixed-shape dict built by
`generate_meta_tags`: keys in insertion order, two-space indentation, the
constant fields emitted verbatim. -/
def schemaDumps (sc : SchemaOrg) : String :=
  "\x7b\n  \"@context\": \"https://schema.org\",\n  \"@type\": \"LocalBusiness\",\n  \"name\": " ++
  jsonStr sc.name ++
  ",\n  \"description\": " ++
  jsonStr sc.description ++
  ",\n  \"areaServed\": " ++
  jsonStr sc.areaServed ++
  ",\n  \"address\": \x7b\n    \"@type\": \"PostalAddress\",\n    \"addressLocality\": " ++
  jsonStr sc.addressLocality ++
  ",\n    \"addressRegion\": \"\",\n    \"addressCountry\": " ++
  jsonStr sc.addressCountry ++
  "\n  \x7d\n\x7d"

/-- The block the benefit loop (lines 240 to 246) appends for one benefit. -/
def benefitBlock (b : Benefit) : String :=
  "\n            <div class=\"benefit\">\n                <h2>" ++
  b.title.getD "" ++
  "</h2>\n                <p>" ++
  b.description.getD "" ++
  "</p>\n            </div>\n"

/-- `generate_html_page` (lines 163 to 265): the complete page as the exact
concatenation the f-string template produces (literal text transcribed byte
for byte from the source, braces written `\x7b`/`\x7d`).  The `original_html`
and `api_key` parameters are kept from the source signature; the source never
reads them. -/
def generate_html_page (keyword city state country : String) (content : GeneratedContent)
    (meta_tags : MetaTags) (colors fonts : List String)
    (original_html api_key : String) : String :=
  let primary_color := colors.headD "#667eea"
  let secondary_color := colors.getD 1 "#764ba2"
  "<!DOCTYPE html>" ++
  ("\n<html lang=\"en\">\n<head>\n    <meta charset=\"UTF-8\">\n    <meta name=\"viewport\" content=\"width=device-width, initial-scale=1.0\">\n    <meta name=\"description\" content=\"" ++
  (meta_tags.description ++
  (("\">\n    <meta name=\"keywords\" content=\"" ++ meta_tags.keywords ++
    "\">\n    <meta name=\"author\" content=\"SEO Page Generator\">\n    <title>") ++
  (meta_tags.title ++
  (("</title>\n    \n    <script type=\"application/ld+json\">\n    " ++
    schemaDumps meta_tags.schema ++
    "\n    </script>\n    \n    <style>\n        * \x7b margin: 0; padding: 0; box-sizing: border-box; \x7d\n        body \x7b font-family: " ++
    fonts.headD "Arial" ++
    ", sans-serif; color: #333; line-height: 1.6; \x7d\n        \n        header \x7b background: ") ++
  (("linear-gradient(135deg, " ++ primary_color ++ " 0%, " ++ secondary_color ++ " 100%)") ++
  (("; \n                 color: white; padding: 60px 20px; text-align: center; \x7d\n        header h1 \x7b font-size: 2.5em; margin-bottom: 10px; \x7d\n        \n        nav \x7b background: " ++
    primary_color ++
    "; padding: 15px; \x7d\n        nav a \x7b color: white; text-decoration: none; margin: 0 15px; \x7d\n        \n        .container \x7b max-width: 1200px; margin: 0 auto; padding: 40px 20px; \x7d\n        \n        .intro-section \x7b background: #f8f9fa; padding: 30px; border-radius: 8px; margin-bottom: 40px; \x7d\n        .intro-section p \x7b font-size: 1.1em; color: #555; \x7d\n        \n        .benefits \x7b display: grid; grid-template-columns: repeat(auto-fit, minmax(300px, 1fr)); gap: 30px; margin: 40px 0; \x7d\n        .benefit \x7b background: white; padding: 25px; border-radius: 8px; border-left: 4px solid " ++
    primary_color ++
    "; \n                   box-shadow: 0 2px 8px rgba(0,0,0,0.1); \x7d\n        .benefit h2 \x7b color: " ++
    primary_color ++
    "; margin-bottom: 15px; \x7d\n        \n        .cta-section \x7b background: " ++
    primary_color ++
    "; color: white; padding: 40px; text-align: center; border-radius: 8px; margin: 40px 0; \x7d\n        .cta-section button \x7b background: white; color: " ++
    primary_color ++
    "; padding: 12px 30px; border: none; \n                              border-radius: 5px; font-size: 1.1em; cursor: pointer; font-weight: bold; \x7d\n        \n        footer \x7b background: #333; color: white; text-align: center; padding: 20px; margin-top: 60px; \x7d\n        \n        .breadcrumb \x7b color: " ++
    primary_color ++
    "; margin-bottom: 20px; font-size: 0.9em; \x7d\n        \n        h1, h2, h3 \x7b color: " ++
    primary_color ++
    "; margin-top: 20px; \x7d\n        \n        @media (max-width: 768px) \x7b\n            header h1 \x7b font-size: 1.8em; \x7d\n            .benefits \x7b grid-template-columns: 1fr; \x7d\n        \x7d\n    </style>\n</head>\n<body>\n    <nav>\n        <a href=\"/\">Home</a>\n        <a href=\"#" ++
    pyReplaceChar ' ' '-' (pyLower keyword) ++
    "\">" ++ keyword ++
    "</a>\n        <a href=\"/contact\">Contact</a>\n    </nav>\n    \n    <header>\n        <div class=\"breadcrumb\">Home / " ++
    keyword ++ (if city ≠ "" then " / " ++ city else "") ++
    "</div>\n        <h1>" ++
    content.h1.getD ("Professional " ++ keyword ++ " Services") ++
    "</h1>\n    </header>\n    \n    <div class=\"container\">\n        <section class=\"intro-section\">\n            <p>" ++
    content.intro.getD "" ++
    "</p>\n        </section>\n        \n        <section class=\"benefits\">\n" ++
    String.join ((content.benefits.getD []).map benefitBlock) ++
    "\n        </section>\n        \n        <section class=\"cta-section\">\n            <h2>Ready to Get Started?</h2>\n            <p>" ++
    content.cta.getD "" ++
    "</p>\n            <button onclick=\"alert(\x27Contact form here\x27)\">Get in Touch</button>\n        </section>\n    </div>\n    \n    <footer>\n        <p>&copy; 2024 " ++
    keyword ++
    " Services. All rights reserved.</p>\n        <p>Serving " ++
    pyOrStr city "Multiple Locations" ++
    (if country ≠ "" then ", " ++ country else "") ++
    "</p>\n    </footer>\n</body>\n") ++
  "</html>")))))))

-- ### Batch orchestrator (src/app.py lines 352 to 406)

/-- The effective-location resolution of lines 367 to 369.  The Python line
`kw_item['city'] or default_city if use_default_location else kw_item['city']`
parses as `(own or default) if use_default_location else own`. -/
def effectiveField (use_default_location : Bool) (own deflt : String) : String :=
  if use_default_location then pyOrStr own deflt else own

/-- The per-run inputs of the batch loop that do not vary across iterations. -/
structure BatchParams where
  use_default_location : Bool
  default_city : String
  default_state : String
  default_country : String
  colors : List String
  fonts : List String
  html_content : String
  api_key : String

/-- The body of one loop iteration (lines 365 to 400): resolve the effective
location, consult the content generator (its outcome is `content?`), and when
content was produced build meta tags and the page and wrap them as the
appended `PageResult`; a `none` outcome appends nothing. -/
def batchStep (p : BatchParams) (kw_item : KeywordRecord)
    (content? : Option GeneratedContent) : Option PageResult :=
  let city := effectiveField p.use_default_location kw_item.city p.default_city
  let state := effectiveField p.use_default_location kw_item.state p.default_state
  let country := effectiveField p.use_default_location kw_item.country p.default_country
  match content? with
  | none => none
  | some content =>
    let meta_tags := generate_meta_tags kw_item.keyword city country (content.intro.getD "")
    let html_page := generate_html_page kw_item.keyword city state country content meta_tags
      p.colors p.fonts p.html_content p.api_key
    some { keyword := kw_item.keyword, city := city, country := country,
           html := html_page, content := content, meta := meta_tags }

/-- The loop itself: `items` pairs each keyword record with its generator
outcome, `idx` is the running index and `total` the value of
`len(keywords_list)`.  Returns the accumulated pages and the sequence of
progress values reported by `progress_bar.progress((idx + 1) / total)`. -/
def runBatchAux (p : BatchParams) (total : Nat) :
    Nat → List (KeywordRecord × Option GeneratedContent) → List PageResult × List ℚ
  | _, [] => ([], [])
  | idx, item :: rest =>
    let r := runBatchAux p total (idx + 1) rest
    let pages :=
      match batchStep p item.1 item.2 with
      | some page => page :: r.1
      | none => r.1
    (pages, ((idx + 1 : ℕ) : ℚ) / (total : ℚ) :: r.2)

/-- The `Generate All Pages` loop over `keywords_list`, where iteration `idx`
observes generator outcome `responses[idx]`. -/
def runBatch (p : BatchParams) (keywords_list : List KeywordRecord)
    (responses : List (Option GeneratedContent)) : List PageResult × List ℚ :=
  runBatchAux p keywords_list.length 0 (keywords_list.zip responses)

/-- The pieces of `st.session_state` the generate handler reads. -/
structure Session where
  api_key_set : Bool
  html_content : Option String
  colors : List String
  fonts : List String
  generated_pages : List PageResult
  api_key : String

/-- Everything observable from one press of the generate button: the error
messages shown, the accumulated pages afterwards, the reported progress
values, and how many content generator calls were made. -/
structure GenOutcome where
  errors : List String
  pages : List PageResult
  progressLog : List ℚ
  genCalls : Nat

/-- The `Generate All Pages` click handler (lines 352 to 406).  The three
precondition checks form an if/elif chain, so only the first violated
precondition's message is shown; on success the accumulated list is reset and
rebuilt, and the loop makes one generator call per record. -/
def handleGenerate (sess : Session) (keywords_list : List KeywordRecord)
    (use_default_location : Bool) (default_city default_state default_country : String)
    (responses : List (Option GeneratedContent)) : GenOutcome :=
  if !sess.api_key_set then
    { errors := ["❌ Please set OpenAI API Key first!"], pages := sess.generated_pages,
      progressLog := [], genCalls := 0 }
  else if keywords_list.isEmpty then
    { errors := ["❌ Please add keywords!"], pages := sess.generated_pages,
      progressLog := [], genCalls := 0 }
  else if sess.html_content.isNone then
    { errors := ["❌ Please upload HTML file first!"], pages := sess.generated_pages,
      progressLog := [], genCalls := 0 }
  else
    let p : BatchParams :=
      { use_default_location := use_default_location
        default_city := default_city
        default_state := default_state
        default_country := default_country
        colors := sess.colors
        fonts := sess.fonts
        html_content := sess.html_content.getD ""
        api_key := sess.api_key }
    let r := runBatch p keywords_list responses
    { errors := [], pages := r.1, progressLog := r.2, genCalls := keywords_list.length }

-- ### Export layer (src/app.py lines 450 to 465)

/-- The ZIP entry name built on line 457:
`f"{page['keyword'].replace(' ', '_')}_{page['city']}.html"`.
Spaces are replaced only inside the keyword. -/
def zipFileName (page : PageResult) : String :=
  pyReplaceChar ' ' '_' page.keyword ++ "_" ++ page.city ++ ".html"

/-- The `Download All as ZIP` handler: one named HTML entry per accumulated
page. -/
def zipEntries (pages : List PageResult) : List (String × String) :=
  pages.map fun page => (zipFileName page, page.html)

-- ### Helper relations and lemmas

/-- `needle` occurs contiguously inside `hay`. -/
def strContains (hay needle : String) : Prop := needle.data <:+: hay.data

/-- `hay` starts with `needle`. -/
def strStarts (hay needle : String) : Prop := needle.data <+: hay.data

/-- `hay` ends with `needle`. -/
def strEnds (hay needle : String) : Prop := needle.data <:+ hay.data

/-- No leading whitespace (also used, via `reverse`, for no trailing
whitespace). -/
def noLeadWS : List Char → Bool
  | [] => true
  | c :: _ => !isWS c

/-- A parser output field is clean when it carries no leading or trailing
whitespace and no comma. -/
def cleanField (s : String) : Bool :=
  noLeadWS s.data && noLeadWS s.data.reverse && !s.data.contains ','

/-- All four fields of a parsed record are clean. -/
def cleanRecord (r : KeywordRecord) : Bool :=
  cleanField r.keyword && cleanField r.city && cleanField r.state && cleanField r.country

theorem strContains_left {s t : String} (u : String) (h : strContains s t) :
    strContains (u ++ s) t := by
  unfold strContains at *
  rw [String.data_append]
  exact h.trans (List.suffix_append u.data s.data).isInfix

theorem strContains_head (t u : String) : strContains (t ++ u) t := by
  unfold strContains
  rw [String.data_append]
  exact (List.prefix_append t.data u.data).isInfix

theorem strStarts_head (t u : String) : strStarts (t ++ u) t := by
  unfold strStarts
  rw [String.data_append]
  exact List.prefix_append t.data u.data

theorem strEnds_left {s t : String} (u : String) (h : strEnds s t) :
    strEnds (u ++ s) t := by
  unfold strEnds at *
  rw [String.data_append]
  exact h.trans (List.suffix_append u.data s.data)

theorem strEnds_tail (u t : String) : strEnds (u ++ t) t := by
  unfold strEnds
  rw [String.data_append]
  exact List.suffix_append u.data t.data

theorem noLeadWS_dropWS (l : List Char) : noLeadWS (dropWS l) = true := by
  induction l with
  | nil => rfl
  | cons c cs ih =>
    by_cases h : isWS c = true
    · simpa [dropWS, List.dropWhile_cons, h] using ih
    · simp [dropWS, List.dropWhile_cons, h, noLeadWS]

theorem dropWS_of_noLead {l : List Char} (h : noLeadWS l = true) : dropWS l = l := by
  cases l with
  | nil => rfl
  | cons c cs =>
    simp only [noLeadWS, Bool.not_eq_true'] at h
    simp [dropWS, List.dropWhile_cons, h]

theorem noLeadWS_append_left {a b : List Char} (h : noLeadWS (a ++ b) = true)
    (ha : a ≠ []) : noLeadWS a = true := by
  cases a with
  | nil => exact absurd rfl ha
  | cons c cs => simpa [noLeadWS, List.cons_append] using h

theorem noLead_rev_dropWS {l : List Char} (h : noLeadWS l.reverse = true) :
    noLeadWS (dropWS l).reverse = true := by
  by_cases hd : dropWS l = []
  · simp [hd, noLeadWS]
  · have hdecomp : l.reverse = (dropWS l).reverse ++ (List.takeWhile isWS l).reverse := by
      rw [dropWS, ← List.reverse_append, List.takeWhile_append_dropWhile]
    rw [hdecomp] at h
    exact noLeadWS_append_left h (by simpa [List.reverse_eq_nil_iff] using hd)

theorem trimCh_noLead (l : List Char) : noLeadWS (trimCh l) = true := by
  unfold trimCh
  refine noLead_rev_dropWS ?_
  rw [List.reverse_reverse]
  exact noLeadWS_dropWS l

theorem trimCh_noTrail (l : List Char) : noLeadWS (trimCh l).reverse = true := by
  unfold trimCh
  rw [List.reverse_reverse]
  exact noLeadWS_dropWS _

theorem trimCh_idem (l : List Char) : trimCh (trimCh l) = trimCh l := by
  conv_lhs => rw [trimCh]
  rw [dropWS_of_noLead (trimCh_noLead l), dropWS_of_noLead (trimCh_noTrail l),
    List.reverse_reverse]

theorem trimCh_subset (l : List Char) : trimCh l ⊆ l := by
  intro a ha
  simp only [trimCh, dropWS, List.mem_reverse] at ha
  have h1 := (List.dropWhile_sublist (l := (List.dropWhile isWS l).reverse) isWS).subset ha
  rw [List.mem_reverse] at h1
  exact (List.dropWhile_sublist isWS).subset h1

theorem splitCh_ne_nil (sep : Char) (l : List Char) : splitCh sep l ≠ [] := by
  cases l with
  | nil => exact List.cons_ne_nil _ _
  | cons c cs =>
    simp only [splitCh]
    split <;> exact List.cons_ne_nil _ _

theorem splitCh_of_not_mem {sep : Char} {l : List Char}
    (h : sep ∉ l) : splitCh sep l = [l] := by
  induction l with
  | nil => rfl
  | cons c cs ih =>
    simp only [List.mem_cons, not_or] at h
    have hc : (c == sep) = false := beq_eq_false_iff_ne.mpr (fun hh => h.1 hh.symm)
    have hcs : sep ∉ cs := h.2
    simp [splitCh, ih hcs, hc]

theorem splitCh_pieces_not_mem (sep : Char) (l : List Char) :
    ∀ p ∈ splitCh sep l, sep ∉ p := by
  induction l with
  | nil =>
    intro p hp
    simp only [splitCh, List.mem_singleton] at hp
    simp [hp]
  | cons c cs ih =>
    intro p hp
    simp only [splitCh] at hp
    by_cases hc : (c == sep) = true
    · rw [if_pos hc] at hp
      rcases List.mem_cons.mp hp with h1 | h1
      · simp [h1]
      · exact ih p h1
    · rw [if_neg hc] at hp
      rcases List.mem_cons.mp hp with h1 | h1
      · subst h1
        intro hmem
        rcases List.mem_cons.mp hmem with h2 | h2
        · exact hc (by simp [h2])
        · cases hsp : splitCh sep cs with
          | nil => exact absurd hsp (splitCh_ne_nil sep cs)
          | cons hh tt =>
            rw [hsp] at h2
            exact ih hh (by rw [hsp]; exact List.mem_cons_self hh tt) (by simpa using h2)
      · exact ih p (List.mem_of_mem_tail h1)

-- ### Claim theorems

/-- Claim C3: for every keyword, city, country and content summary (including
arbitrarily long keywords), the meta tags built by `generate_meta_tags`
satisfy: the title has at most 55 characters and the description at most
155. -/
theorem claim_C3 (keyword city country content_summary : String) :
    pyLen (generate_meta_tags keyword city country content_summary).title ≤ 55 ∧
    pyLen (generate_meta_tags keyword city country content_summary).description ≤ 155 := by
  constructor <;>
    · simp only [generate_meta_tags, pyLen, pySlice, List.length_take]
      omega

/-- Claim C7: the effective city, state and country each equal the
session-wide default exactly when the "use default location" flag is set and
the record's own field is empty, and equal the record's own field otherwise;
with the flag off, defaults are never substituted.  The second conjunct ties
this resolution to the batch loop: the `PageResult` a loop iteration appends
carries the effective city computed by `effectiveField`. -/
theorem claim_C7 (use_default_location : Bool) (own deflt : String) :
    (effectiveField use_default_location own deflt =
      if use_default_location = true ∧ own = "" then deflt else own) ∧
    (∀ (p : BatchParams) (kw_item : KeywordRecord) (content : GeneratedContent),
      (batchStep p kw_item (some content)).map PageResult.city =
        some (effectiveField p.use_default_location kw_item.city p.default_city) ∧
      (batchStep p kw_item (some content)).map PageResult.country =
        some (effectiveField p.use_default_location kw_item.country p.default_country)) := by
  constructor
  · cases use_default_location <;> by_cases h : own = "" <;>
      simp [effectiveField, pyOrStr, h]
  · intro p kw_item content
    exact ⟨rfl, rfl⟩

/-- Claim C4: when the model reply is not parseable, the content generator
returns the deterministic fallback built purely from the keyword and the
location strings; repeated parse failures on the same inputs give the
identical content; the fallback's three benefits carry the fixed titles; and
every successfully-invoked record still yields content. -/
theorem claim_C4 (parse : String → Option GeneratedContent)
    (keyword city state country api_key text : String)
    (h : parse text = none) :
    generate_content_with_openai parse keyword city state country api_key (Except.ok text) =
      some (fallbackContent keyword (locationContext city state country)) ∧
    (∀ text2 : String, parse text2 = none →
      generate_content_with_openai parse keyword city state country api_key (Except.ok text2) =
        generate_content_with_openai parse keyword city state country api_key (Except.ok text)) ∧
    ((fallbackContent keyword (locationContext city state country)).benefits.getD
        []).map Benefit.title =
      [some "Expert Team", some "Affordable Pricing", some "Fast Service"] ∧
    (generate_content_with_openai parse keyword city state country api_key
        (Except.ok text)).isSome = true := by
  refine ⟨?_, ?_, ?_, ?_⟩
  · simp [generate_content_with_openai, h]
  · intro text2 h2
    simp [generate_content_with_openai, h, h2]
  · rfl
  · simp [generate_content_with_openai]

/-- Witness for C4 at a concrete failing parse. -/
theorem claim_C4_witness :
    generate_content_with_openai (fun _ => none) "plumber" "" "" "" "key"
        (Except.ok "not json") =
      some (fallbackContent "plumber" (locationContext "" "" "")) ∧
    ((fallbackContent "plumber" (locationContext "" "" "")).benefits.getD
        []).map Benefit.title =
      [some "Expert Team", some "Affordable Pricing", some "Fast Service"] :=
  ⟨(claim_C4 (fun _ => none) "plumber" "" "" "" "key" "not json" rfl).1,
   (claim_C4 (fun _ => none) "plumber" "" "" "" "key" "not json" rfl).2.2.1⟩

/-- Claim C9 counterexample: a keyword and a city both containing spaces whose
ZIP entry name still contains a space, because the source replaces spaces only
inside the keyword (`page['keyword'].replace(' ', '_')`) and splices the city
in verbatim. -/
theorem claim_C9_counterexample :
    (zipFileName
        { keyword := "bulk plumber", city := "New York", country := "USA", html := "",
          content := { h1 := none, intro := none, benefits := none, cta := none },
          meta := { title := "", description := "", keywords := "",
                    schema := { name := "", description := "", areaServed := "",
                                addressLocality := "", addressCountry := "" } } } =
      "bulk_plumber_New York.html") ∧
    (' ' ∈ ("bulk_plumber_New York.html" : String).data) := by
  constructor
  · rfl
  · decide

/-- Claim C9 as amended: the ZIP export writes exactly one HTML entry per
accumulated result, carrying that result's page text; the entry name replaces
spaces only in the keyword part, so the name contains a space exactly when the
record's city does. -/
theorem claim_C9_amended (pages : List PageResult) (page : PageResult) :
    (zipEntries pages).length = pages.length ∧
    (zipEntries pages).map Prod.snd = pages.map PageResult.html ∧
    ((' ' ∈ (zipFileName page).data) ↔ (' ' ∈ page.city.data)) := by
  refine ⟨by simp [zipEntries], by simp [zipEntries], ?_⟩
  have hkw : ∀ x ∈ (pyReplaceChar ' ' '_' page.keyword).data, x ≠ ' ' := by
    intro x hx
    simp only [pyReplaceChar] at hx
    rcases List.mem_map.mp hx with ⟨c, _, hc⟩
    by_cases h : (c == ' ') = true
    · rw [if_pos h] at hc
      subst hc
      decide
    · rw [if_neg h] at hc
      subst hc
      simpa using h
  constructor
  · intro hmem
    simp only [zipFileName, String.data_append, List.mem_append] at hmem
    rcases hmem with ((h1 | h2) | h3) | h4
    · exact absurd rfl (hkw _ h1)
    · exact absurd h2 (by decide)
    · exact h3
    · exact absurd h4 (by decide)
  · intro hmem
    simp only [zipFileName, String.data_append, List.mem_append]
    exact Or.inl (Or.inr hmem)

/-- Claim C8: the rendered page is a single self-contained HTML document —
it starts with the doctype and ends with the closing html tag, with no file
content after it — contains the supplied meta title and meta description
verbatim as substrings, and its stylesheet uses the first extracted color as
primary and the second as secondary, falling back to the fixed colors
`#667eea` and `#764ba2` when those are absent (last conjunct). -/
theorem claim_C8 (keyword city state country : String) (content : GeneratedContent)
    (meta_tags : MetaTags) (colors fonts : List String) (original_html api_key : String) :
    strStarts (generate_html_page keyword city state country content meta_tags colors fonts
        original_html api_key) "<!DOCTYPE html>" ∧
    strEnds (generate_html_page keyword city state country content meta_tags colors fonts
        original_html api_key) "</html>" ∧
    strContains (generate_html_page keyword city state country content meta_tags colors fonts
        original_html api_key) meta_tags.title ∧
    strContains (generate_html_page keyword city state country content meta_tags colors fonts
        original_html api_key) meta_tags.description ∧
    strContains (generate_html_page keyword city state country content meta_tags colors fonts
        original_html api_key)
      ("linear-gradient(135deg, " ++ colors.headD "#667eea" ++ " 0%, " ++
        colors.getD 1 "#764ba2" ++ " 100%)") ∧
    strContains (generate_html_page keyword city state country content meta_tags [] fonts
        original_html api_key) "linear-gradient(135deg, #667eea 0%, #764ba2 100%)" := by
  refine ⟨?_, ?_, ?_, ?_, ?_, ?_⟩
  · simp only [generate_html_page]
    exact strStarts_head _ _
  · simp only [generate_html_page]
    apply strEnds_left
    apply strEnds_left
    apply strEnds_left
    apply strEnds_left
    apply strEnds_left
    apply strEnds_left
    apply strEnds_left
    exact strEnds_tail _ _
  · simp only [generate_html_page]
    apply strContains_left
    apply strContains_left
    apply strContains_left
    apply strContains_left
    exact strContains_head _ _
  · simp only [generate_html_page]
    apply strContains_left
    apply strContains_left
    exact strContains_head _ _
  · simp only [generate_html_page]
    apply strContains_left
    apply strContains_left
    apply strContains_left
    apply strContains_left
    apply strContains_left
    apply strContains_left
    exact strContains_head _ _
  · have e : ("linear-gradient(135deg, " ++ ([] : List String).headD "#667eea" ++ " 0%, " ++
        ([] : List String).getD 1 "#764ba2" ++ " 100%)") =
        "linear-gradient(135deg, #667eea 0%, #764ba2 100%)" := by decide
    rw [← e]
    simp only [generate_html_page]
    apply strContains_left
    apply strContains_left
    apply strContains_left
    apply strContains_left
    apply strContains_left
    apply strContains_left
    exact strContains_head _ _

/-- Claim C2 counterexample: with all three preconditions violated at once
(credential unset, keyword list empty, no style upload), the handler shows
only the credential message — the messages for the other two violated
preconditions are not produced, refuting "a distinct error message per
violated precondition is produced". -/
theorem claim_C2_counterexample :
    (handleGenerate
        { api_key_set := false, html_content := none, colors := [], fonts := [],
          generated_pages := [], api_key := "" }
        [] true "" "" "" []).errors = ["❌ Please set OpenAI API Key first!"] ∧
    (handleGenerate
        { api_key_set := false, html_content := none, colors := [], fonts := [],
          generated_pages := [], api_key := "" }
        [] true "" "" "" []).errors.contains "❌ Please add keywords!" = false ∧
    (handleGenerate
        { api_key_set := false, html_content := none, colors := [], fonts := [],
          generated_pages := [], api_key := "" }
        [] true "" "" "" []).errors.contains "❌ Please upload HTML file first!" = false := by
  refine ⟨rfl, ?_, ?_⟩ <;> decide

/-- Claim C2 as amended: when any precondition fails the handler produces
exactly one error message — the distinct message of the first violated
precondition, checked in the order credential, keyword list, style upload —
makes no content generator call, reports no progress, and leaves the
previously accumulated results unchanged; the three messages are pairwise
distinct. -/
theorem claim_C2_amended (sess : Session) (keywords_list : List KeywordRecord)
    (use_default_location : Bool) (default_city default_state default_country : String)
    (responses : List (Option GeneratedContent))
    (h : sess.api_key_set = false ∨ keywords_list = [] ∨ sess.html_content = none) :
    (handleGenerate sess keywords_list use_default_location default_city default_state
        default_country responses).genCalls = 0 ∧
    (handleGenerate sess keywords_list use_default_location default_city default_state
        default_country responses).pages = sess.generated_pages ∧
    (handleGenerate sess keywords_list use_default_location default_city default_state
        default_country responses).progressLog = [] ∧
    (handleGenerate sess keywords_list use_default_location default_city default_state
        default_country responses).errors =
      [if sess.api_key_set = false then "❌ Please set OpenAI API Key first!"
       else if keywords_list = [] then "❌ Please add keywords!"
       else "❌ Please upload HTML file first!"] ∧
    (("❌ Please set OpenAI API Key first!" : String) ≠ "❌ Please add keywords!" ∧
     ("❌ Please set OpenAI API Key first!" : String) ≠ "❌ Please upload HTML file first!" ∧
     ("❌ Please add keywords!" : String) ≠ "❌ Please upload HTML file first!") := by
  have hdist : (("❌ Please set OpenAI API Key first!" : String) ≠ "❌ Please add keywords!" ∧
      ("❌ Please set OpenAI API Key first!" : String) ≠ "❌ Please upload HTML file first!" ∧
      ("❌ Please add keywords!" : String) ≠ "❌ Please upload HTML file first!") := by
    refine ⟨?_, ?_, ?_⟩ <;> decide
  cases hA : sess.api_key_set with
  | false => simp [handleGenerate, hA, hdist]
  | true =>
    by_cases hk : keywords_list = []
    · simp [handleGenerate, hA, hk, hdist]
    · have hh : sess.html_content = none := by
        rcases h with h | h | h
        · rw [hA] at h
          exact absurd h (by simp)
        · exact absurd h hk
        · exact h
      simp [handleGenerate, hA, hk, hh, hdist, List.isEmpty_iff]

/-- Witness for C2 at a concrete violating state. -/
theorem claim_C2_witness :
    (handleGenerate
        { api_key_set := true, html_content := none, colors := [], fonts := [],
          generated_pages := [], api_key := "k" }
        [{ keyword := "plumber", city := "", state := "", country := "" }]
        false "" "" "" [none]).genCalls = 0 ∧
    (handleGenerate
        { api_key_set := true, html_content := none, colors := [], fonts := [],
          generated_pages := [], api_key := "k" }
        [{ keyword := "plumber", city := "", state := "", country := "" }]
        false "" "" "" [none]).pages = [] :=
  ⟨(claim_C2_amended _ _ _ _ _ _ _ (Or.inr (Or.inr rfl))).1,
   (claim_C2_amended _ _ _ _ _ _ _ (Or.inr (Or.inr rfl))).2.1⟩

/-- Claim C6: for every HTML document, the style extractor returns at most 5
distinct color tokens — each one of the raw pattern matches — and the empty
list when there is no match; and at most 3 distinct font values, returning
exactly the fixed fallback list `["Arial", "Helvetica", "sans-serif"]` when no
font-family declaration is found. -/
theorem claim_C6 (html_content : String) :
    (extract_colors_from_html html_content).length ≤ 5 ∧
    (extract_colors_from_html html_content).Nodup ∧
    extract_colors_from_html html_content ⊆
      (scanAll matchColorAt html_content.data).map String.mk ∧
    (scanAll matchColorAt html_content.data = [] →
      extract_colors_from_html html_content = []) ∧
    (extract_fonts_from_html html_content).length ≤ 3 ∧
    (extract_fonts_from_html html_content).Nodup ∧
    (scanAll matchFontAt html_content.data = [] →
      extract_fonts_from_html html_content = ["Arial", "Helvetica", "sans-serif"]) := by
  refine ⟨?_, ?_, ?_, ?_, ?_, ?_, ?_⟩
  · simp only [extract_colors_from_html]
    split
    · simp
    · exact List.length_take_le _ _
  · simp only [extract_colors_from_html]
    split
    · exact List.nodup_nil
    · exact (List.take_sublist _ _).nodup (List.nodup_dedup _)
  · simp only [extract_colors_from_html]
    split
    · exact List.nil_subset _
    · exact List.Subset.trans (List.take_subset _ _) (List.dedup_subset _)
  · intro h0
    simp [extract_colors_from_html, h0]
  · simp only [extract_fonts_from_html]
    split
    · decide
    · exact List.length_take_le _ _
  · simp only [extract_fonts_from_html]
    split
    · decide
    · exact (List.take_sublist _ _).nodup (List.nodup_dedup _)
  · intro h0
    simp [extract_fonts_from_html, h0]

/-- Witness for C6 on a document with no color and no font declarations. -/
theorem claim_C6_witness :
    extract_colors_from_html "" = [] ∧
    extract_fonts_from_html "" = ["Arial", "Helvetica", "sans-serif"] :=
  ⟨(claim_C6 "").2.2.2.1 rfl, (claim_C6 "").2.2.2.2.2.2 rfl⟩

theorem specField_long (parts : List (List Char)) (i : Nat) :
    (if parts.length > i then String.mk (trimCh (parts.getD i [])) else "") =
      String.mk (trimCh (parts.getD i [])) := by
  by_cases h : parts.length > i
  · rw [if_pos h]
  · rw [if_neg h, List.getD_eq_default _ _ (by omega)]
    rfl

theorem codeLineRecord_eq_spec {line : List Char} (hline : trimCh line = line) :
    codeLineRecord line = specLineRecord line := by
  unfold codeLineRecord specLineRecord
  by_cases hc : line.contains ',' = true
  · rw [if_pos hc]
    simp only [specField, KeywordRecord.mk.injEq]
    exact ⟨trivial, specField_long _ 1, specField_long _ 2, specField_long _ 3⟩
  · rw [if_neg hc]
    have hnm : ',' ∉ line := fun hm => hc (List.elem_iff.mpr hm)
    simp only [specField, KeywordRecord.mk.injEq]
    rw [splitCh_of_not_mem hnm]
    refine ⟨?_, rfl, rfl, rfl⟩
    rw [show ([line] : List (List Char)).getD 0 [] = line from rfl, hline]

/-- Claim C5: the parser agrees everywhere with the parser the spec describes
(one record per non-empty non-comment line; comma-separated fields map
positionally to keyword, city, state, country, trimmed, missing trailing
fields defaulting to the empty string), and produces the two examples the
spec gives. -/
theorem claim_C5 (input : String) :
    parse_keywords_input input = specParse input ∧
    parse_keywords_input "plumber" =
      [{ keyword := "plumber", city := "", state := "", country := "" }] ∧
    parse_keywords_input "electrician, New York, NY, USA" =
      [{ keyword := "electrician", city := "New York", state := "NY", country := "USA" }] := by
  refine ⟨?_, by decide, by decide⟩
  unfold parse_keywords_input specParse
  rw [List.filterMap_map]
  apply List.filterMap_congr
  intro raw _
  show (if !(trimCh raw).isEmpty && !startsWithHash (trimCh raw) then
          some (codeLineRecord (trimCh raw)) else none) =
       (if !(trimCh raw).isEmpty && !startsWithHash (trimCh raw) then
          some (specLineRecord (trimCh raw)) else none)
  by_cases hcond : (!(trimCh raw).isEmpty && !startsWithHash (trimCh raw)) = true
  · rw [if_pos hcond, if_pos hcond, codeLineRecord_eq_spec (trimCh_idem raw)]
  · rw [if_neg hcond, if_neg hcond]

theorem cleanField_trim_piece {x : List Char} (hx : ',' ∉ x) :
    cleanField (String.mk (trimCh x)) = true := by
  simp only [cleanField, Bool.and_eq_true, Bool.not_eq_true']
  refine ⟨⟨trimCh_noLead _, trimCh_noTrail _⟩, ?_⟩
  have hnm : ',' ∉ trimCh x := fun hm => hx (trimCh_subset _ hm)
  rw [← Bool.not_eq_true]
  intro hc2
  exact hnm (List.elem_iff.mp hc2)

theorem cleanRecord_codeLine {line : List Char} (hline : trimCh line = line) :
    cleanRecord (codeLineRecord line) = true := by
  have hempty : cleanField "" = true := rfl
  unfold codeLineRecord
  by_cases hc : line.contains ',' = true
  · rw [if_pos hc]
    have hpieces := splitCh_pieces_not_mem ',' line
    have hfield : ∀ i : Nat,
        cleanField (String.mk (trimCh ((splitCh ',' line).getD i []))) = true := by
      intro i
      apply cleanField_trim_piece
      by_cases hlt : i < (splitCh ',' line).length
      · cases hg : (splitCh ',' line)[i]? with
        | none =>
          rw [List.getElem?_eq_none_iff] at hg
          omega
        | some piece =>
          have hmem : piece ∈ splitCh ',' line := List.getElem?_mem hg
          rw [List.getD_eq_getElem?_getD, hg]
          exact hpieces piece hmem
      · rw [List.getD_eq_default _ _ (by omega)]
        simp
    simp only [cleanRecord, Bool.and_eq_true]
    refine ⟨⟨⟨hfield 0, ?_⟩, ?_⟩, ?_⟩ <;>
      · split
        · apply hfield
        · exact hempty
  · rw [if_neg hc]
    have hkw : cleanField (String.mk line) = true := by
      simp only [cleanField, Bool.and_eq_true, Bool.not_eq_true']
      refine ⟨⟨?_, ?_⟩, ?_⟩
      · rw [← hline]
        exact trimCh_noLead line
      · rw [← hline]
        exact trimCh_noTrail line
      · rw [← Bool.not_eq_true]
        exact hc
    simp [cleanRecord, hkw, hempty]

/-- Claim C10 (implicit parser invariant): every field of every record the
parser produces is whitespace-trimmed and contains no comma, and
comma-separated fields beyond the fourth are silently discarded — a line with
six fields still yields exactly one record keeping only the first four. -/
theorem claim_C10 (input : String) :
    (parse_keywords_input input).all cleanRecord = true ∧
    parse_keywords_input "a, b, c, d, e, f" =
      [{ keyword := "a", city := "b", state := "c", country := "d" }] := by
  refine ⟨?_, by decide⟩
  rw [List.all_eq_true]
  intro r hr
  unfold parse_keywords_input at hr
  rw [List.mem_filterMap] at hr
  obtain ⟨raw, _, hmap⟩ := hr
  by_cases hcond : (!(trimCh raw).isEmpty && !startsWithHash (trimCh raw)) = true
  · simp only [hcond, if_true, Option.some.injEq] at hmap
    rw [← hmap]
    exact cleanRecord_codeLine (trimCh_idem raw)
  · simp only [hcond] at hmap
    exact absurd hmap (by simp)

theorem batchStep_none (p : BatchParams) (kw : KeywordRecord) :
    batchStep p kw none = none := rfl

theorem runBatchAux_fst_length (p : BatchParams) (total : Nat)
    (items : List (KeywordRecord × Option GeneratedContent)) : ∀ idx : Nat,
    (runBatchAux p total idx items).1.length = items.countP (fun it => it.2.isSome) := by
  induction items with
  | nil => intro idx; rfl
  | cons it rest ih =>
    intro idx
    simp only [runBatchAux]
    cases h2 : it.2 with
    | none => simp [batchStep, ih (idx + 1), List.countP_cons, h2]
    | some content => simp [batchStep, ih (idx + 1), List.countP_cons, h2]

theorem runBatchAux_fst_keywords (p : BatchParams) (total : Nat)
    (items : List (KeywordRecord × Option GeneratedContent)) : ∀ idx : Nat,
    (runBatchAux p total idx items).1.map PageResult.keyword =
      items.filterMap (fun it => if it.2.isSome then some it.1.keyword else none) := by
  induction items with
  | nil => intro idx; rfl
  | cons it rest ih =>
    intro idx
    simp only [runBatchAux]
    cases h2 : it.2 with
    | none => simp [batchStep, ih (idx + 1), List.filterMap_cons, h2]
    | some content => simp [batchStep, ih (idx + 1), List.filterMap_cons, h2]

theorem runBatchAux_snd (p : BatchParams) (total : Nat)
    (items : List (KeywordRecord × Option GeneratedContent)) : ∀ idx : Nat,
    (runBatchAux p total idx items).2 =
      (List.range items.length).map (fun i => ((idx + i + 1 : ℕ) : ℚ) / (total : ℚ)) := by
  induction items with
  | nil => intro idx; rfl
  | cons it rest ih =>
    intro idx
    simp only [runBatchAux, List.length_cons, List.range_succ_eq_map, List.map_cons,
      List.map_map, ih (idx + 1)]
    have hhead : ((idx + 1 : ℕ) : ℚ) = ((idx + 0 + 1 : ℕ) : ℚ) := by norm_num
    have htail : List.map (fun i => ((idx + 1 + i + 1 : ℕ) : ℚ) / (total : ℚ))
        (List.range rest.length) =
        List.map ((fun i => ((idx + i + 1 : ℕ) : ℚ) / (total : ℚ)) ∘ Nat.succ)
        (List.range rest.length) := by
      apply List.map_congr_left
      intro i _
      have hnat : idx + 1 + i + 1 = idx + Nat.succ i + 1 := by omega
      simp only [Function.comp]
      rw [hnat]
    rw [hhead, htail]

/-- Claim C1: running the batch over N records of which M responses produce
content yields exactly M accumulated `PageResult`s, in input order (their
keywords are the keywords of the successful records, in order); progress is
reported once per record and the last reported value is exactly 1; failed
records are skipped without aborting the rest. -/
theorem claim_C1 (p : BatchParams) (keywords_list : List KeywordRecord)
    (responses : List (Option GeneratedContent))
    (hlen : responses.length = keywords_list.length)
    (hne : keywords_list ≠ []) :
    (runBatch p keywords_list responses).1.length = responses.countP Option.isSome ∧
    (runBatch p keywords_list responses).1.map PageResult.keyword =
      (keywords_list.zip responses).filterMap
        (fun it => if it.2.isSome then some it.1.keyword else none) ∧
    (runBatch p keywords_list responses).2.length = keywords_list.length ∧
    (runBatch p keywords_list responses).2.getLast? = some 1 := by
  have hz : (keywords_list.zip responses).length = keywords_list.length := by
    simp [List.length_zip, hlen]
  refine ⟨?_, ?_, ?_, ?_⟩
  · rw [runBatch, runBatchAux_fst_length]
    have hmap : (keywords_list.zip responses).countP (fun it => it.2.isSome) =
        (List.map Prod.snd (keywords_list.zip responses)).countP Option.isSome := by
      rw [List.countP_map]
      rfl
    rw [hmap, List.map_snd_zip _ _ (le_of_eq hlen)]
  · rw [runBatch, runBatchAux_fst_keywords]
  · rw [runBatch, runBatchAux_snd, List.length_map, List.length_range, hz]
  · rw [runBatch, runBatchAux_snd]
    obtain ⟨n, hn⟩ : ∃ n, keywords_list.length = n + 1 := by
      cases keywords_list with
      | nil => exact absurd rfl hne
      | cons a l => exact ⟨l.length, rfl⟩
    rw [hz, hn, List.range_succ]
    simp only [List.map_append, List.map_cons, List.map_nil, List.getLast?_concat]
    have h0 : ((0 + n + 1 : ℕ) : ℚ) = ((n + 1 : ℕ) : ℚ) := by norm_num
    have hden : ((n + 1 : ℕ) : ℚ) ≠ 0 := Nat.cast_ne_zero.mpr (Nat.succ_ne_zero n)
    rw [h0, div_self hden]

/-- Witness for C1: two records, the first call fails, the second succeeds —
one page results and the final reported progress is 1. -/
theorem claim_C1_witness :
    (runBatch
        { use_default_location := false, default_city := "", default_state := "",
          default_country := "", colors := [], fonts := [], html_content := "", api_key := "" }
        [{ keyword := "plumber", city := "", state := "", country := "" },
         { keyword := "electrician", city := "New York", state := "NY", country := "USA" }]
        [none, some { h1 := none, intro := none, benefits := none, cta := none }]).1.length =
      ([none, some ({ h1 := none, intro := none, benefits := none, cta := none } :
          GeneratedContent)] : List (Option GeneratedContent)).countP Option.isSome ∧
    (runBatch
        { use_default_location := false, default_city := "", default_state := "",
          default_country := "", colors := [], fonts := [], html_content := "", api_key := "" }
        [{ keyword := "plumber", city := "", state := "", country := "" },
         { keyword := "electrician", city := "New York", state := "NY", country := "USA" }]
        [none, some { h1 := none, intro := none, benefits := none, cta := none }]).2.getLast? =
      some 1 :=
  ⟨(claim_C1 _ _ _ rfl (by simp)).1, (claim_C1 _ _ _ rfl (by simp)).2.2.2⟩
